import Mathlib

/-!
Verification development for the xAI ESP-IDF client component.

Shallow embedding of the parts of the C sources relevant to the checked
properties: the WebSocket TEXT-frame assembler (src/xai_ws_assembler.c), the
SSE stream tokenizer (src/xai_stream.c), the HTTP status mapping
(src/xai_http.c), the chat request builder (src/xai_json.c), the image
request builder (src/xai_images.c) and the realtime voice client
(src/xai_voice_realtime.c).

Machine integers are modelled as Nat / Int with the size_t casts made
explicit; byte buffers are lists of Nat; fallible C functions return a
result code next to the new state.
-/

namespace XaiModel

/-- Error codes from xai.h (xai_err_t), including the realtime additions
used by xai_error.c and xai_voice_realtime.c. -/
inductive XaiErr where
  | ok
  | invalidArg
  | noMemory
  | httpFailed
  | parseFailed
  | authFailed
  | rateLimit
  | timeout
  | apiError
  | notSupported
  | notReady
  | wsFailed
  | busy
deriving Repr, DecidableEq

/-! ## WebSocket TEXT frame assembler (src/xai_ws_assembler.c) -/

/-- State of xai_ws_assembler_t. `buf` is the byte buffer (bytes as Nat);
`cap` mirrors the stored capacity field. -/
structure WsAssembler where
  buf : List Nat
  cap : Nat
  payload_len : Nat
  max_written : Nat
  in_progress : Bool
deriving Repr, DecidableEq

/-- Cast of a C int to size_t (64-bit), as in `(size_t)payload_len`. -/
def usize (x : Int) : Nat := (x % (2 : Int) ^ 64).toNat

/-- xai_ws_assembler_init: the caller passes a buffer and its capacity. -/
def wsInit (buf : List Nat) : WsAssembler :=
  { buf := buf, cap := buf.length, payload_len := 0, max_written := 0, in_progress := false }

/-- xai_ws_assembler_reset. -/
def wsReset (a : WsAssembler) : WsAssembler :=
  { a with payload_len := 0, max_written := 0, in_progress := false }

/-- memcpy(buf + off, data, data.length) for off + data.length within the
buffer: the bytes of `data` replace the slice starting at `off`. -/
def listWrite (buf : List Nat) (off : Nat) (data : List Nat) : List Nat :=
  buf.take off ++ data ++ buf.drop (off + data.length)

/-- xai_ws_assembler_feed_text. `data` stands for the pair
(data_ptr, data_len) with data_len = data.length; a NULL data_ptr is not
representable in this model (the claims only concern valid pointers).
Returns (complete, new state). -/
def wsFeedText (a : WsAssembler) (payload_len payload_offset : Int)
    (data : List Nat) (fin : Bool) : Bool × WsAssembler :=
  if a.cap = 0 ∨ data.length = 0 then (false, a)
  else if payload_len ≤ 0 then (false, a)
  else if usize payload_len > a.cap then (false, wsReset a)
  else
    -- new message start
    let a1 : WsAssembler :=
      if payload_offset = 0 then
        { a with payload_len := usize payload_len, max_written := 0, in_progress := true }
      else a
    if payload_offset ≠ 0 ∧ a1.in_progress = false then (false, a1)
    else if (usize payload_offset + data.length) % 2 ^ 64 > a1.cap then (false, wsReset a1)
    else
      let off := usize payload_offset
      let written_end := (off + data.length) % 2 ^ 64
      let mw := if written_end > a1.max_written then written_end else a1.max_written
      let a2 : WsAssembler := { a1 with buf := listWrite a1.buf off data, max_written := mw }
      if fin = true ∧ 0 < a2.payload_len ∧ a2.max_written = a2.payload_len then
        (true, { a2 with in_progress := false })
      else (false, a2)

/-- C1. For a valid fragment (positive declared payload length within
capacity, data within capacity), feed returns complete = true iff fin is
set, the expected length is positive and max_written equals the expected
length after the copy; completion clears in_progress. A fragment with
positive offset arriving while no message is in progress is dropped
unchanged and feed returns false. -/
theorem assembler_feed_complete_iff
    (a : WsAssembler) (payload_len payload_offset : Int) (data : List Nat) (fin : Bool)
    (hpl : 0 < payload_len) (hplcap : payload_len.toNat ≤ a.cap)
    (hoff : 0 ≤ payload_offset) (hdata : data ≠ [])
    (hfit : payload_offset.toNat + data.length ≤ a.cap)
    (hcap : a.cap < 2 ^ 64) :
    (0 < payload_offset ∧ a.in_progress = false →
      (wsFeedText a payload_len payload_offset data fin).1 = false ∧
      (wsFeedText a payload_len payload_offset data fin).2 = a) ∧
    (payload_offset = 0 ∨ a.in_progress = true →
      ((wsFeedText a payload_len payload_offset data fin).1 = true ↔
        fin = true ∧
        0 < (wsFeedText a payload_len payload_offset data fin).2.payload_len ∧
        (wsFeedText a payload_len payload_offset data fin).2.max_written =
          (wsFeedText a payload_len payload_offset data fin).2.payload_len) ∧
      ((wsFeedText a payload_len payload_offset data fin).1 = true →
        (wsFeedText a payload_len payload_offset data fin).2.in_progress = false)) := by
  have hdlen : data.length ≠ 0 := fun h => hdata (List.length_eq_zero.mp h)
  have hc1 : ¬(a.cap = 0 ∨ data.length = 0) := by
    rintro (h | h)
    · omega
    · exact hdlen h
  have hc2 : ¬payload_len ≤ 0 := by omega
  have hupl : usize payload_len = payload_len.toNat := by
    unfold usize
    rw [Int.emod_eq_of_lt hpl.le (by omega)]
  have hc3 : ¬usize payload_len > a.cap := by
    rw [hupl]; omega
  have huoff : usize payload_offset = payload_offset.toNat := by
    unfold usize
    rw [Int.emod_eq_of_lt hoff (by omega)]
  have hsum : (usize payload_offset + data.length) % 2 ^ 64 =
      payload_offset.toNat + data.length := by
    rw [huoff, Nat.mod_eq_of_lt (by omega)]
  constructor
  · rintro ⟨hoffpos, hip⟩
    have hoffne : payload_offset ≠ 0 := by omega
    simp only [wsFeedText]
    rw [if_neg hc1, if_neg hc2, if_neg hc3]
    simp only [if_neg hoffne]
    rw [if_pos ⟨hoffne, hip⟩]
    exact ⟨rfl, rfl⟩
  · intro hcase
    simp only [wsFeedText]
    rw [if_neg hc1, if_neg hc2, if_neg hc3]
    rcases hcase with hoff0 | hip
    · simp only [if_pos hoff0]
      set a1 : WsAssembler :=
        { a with payload_len := usize payload_len, max_written := 0, in_progress := true } with ha1
      have hnd : ¬(payload_offset ≠ 0 ∧ a1.in_progress = false) := by
        rintro ⟨h, _⟩; exact h hoff0
      rw [if_neg hnd]
      have hcapeq : a1.cap = a.cap := rfl
      have hsz : ¬((usize payload_offset + data.length) % 2 ^ 64 > a1.cap) := by
        rw [hsum, hcapeq]; omega
      rw [if_neg hsz]
      set written_end := (usize payload_offset + data.length) % 2 ^ 64 with hwe
      set mw := if written_end > a1.max_written then written_end else a1.max_written with hmw
      set a2 : WsAssembler :=
        { a1 with buf := listWrite a1.buf (usize payload_offset) data, max_written := mw } with ha2
      by_cases hdone : fin = true ∧ 0 < a2.payload_len ∧ a2.max_written = a2.payload_len
      · rw [if_pos hdone]
        exact ⟨by simpa using hdone, fun _ => rfl⟩
      · rw [if_neg hdone]
        constructor
        · constructor
          · intro h; exact absurd h (by simp)
          · intro h; exact absurd h hdone
        · intro h; exact absurd h (by simp)
    · by_cases hoff0 : payload_offset = 0
      · simp only [if_pos hoff0]
        set a1 : WsAssembler :=
          { a with payload_len := usize payload_len, max_written := 0, in_progress := true } with ha1
        have hnd : ¬(payload_offset ≠ 0 ∧ a1.in_progress = false) := by
          rintro ⟨h, _⟩; exact h hoff0
        rw [if_neg hnd]
        have hsz : ¬((usize payload_offset + data.length) % 2 ^ 64 > a1.cap) := by
          rw [hsum]; show ¬(_ > a.cap); omega
        rw [if_neg hsz]
        set mw := if (usize payload_offset + data.length) % 2 ^ 64 > a1.max_written then
            (usize payload_offset + data.length) % 2 ^ 64 else a1.max_written with hmw
        set a2 : WsAssembler :=
          { a1 with buf := listWrite a1.buf (usize payload_offset) data, max_written := mw } with ha2
        by_cases hdone : fin = true ∧ 0 < a2.payload_len ∧ a2.max_written = a2.payload_len
        · rw [if_pos hdone]
          exact ⟨by simpa using hdone, fun _ => rfl⟩
        · rw [if_neg hdone]
          constructor
          · constructor
            · intro h; exact absurd h (by simp)
            · intro h; exact absurd h hdone
          · intro h; exact absurd h (by simp)
      · simp only [if_neg hoff0]
        have hnd : ¬(payload_offset ≠ 0 ∧ a.in_progress = false) := by
          rintro ⟨_, h⟩; rw [hip] at h; exact Bool.noConfusion h
        rw [if_neg hnd]
        have hsz : ¬((usize payload_offset + data.length) % 2 ^ 64 > a.cap) := by
          rw [hsum]; omega
        rw [if_neg hsz]
        set mw := if (usize payload_offset + data.length) % 2 ^ 64 > a.max_written then
            (usize payload_offset + data.length) % 2 ^ 64 else a.max_written with hmw
        set a2 : WsAssembler :=
          { a with buf := listWrite a.buf (usize payload_offset) data, max_written := mw } with ha2
        by_cases hdone : fin = true ∧ 0 < a2.payload_len ∧ a2.max_written = a2.payload_len
        · rw [if_pos hdone]
          exact ⟨by simpa using hdone, fun _ => rfl⟩
        · rw [if_neg hdone]
          constructor
          · constructor
            · intro h; exact absurd h (by simp)
            · intro h; exact absurd h hdone
          · intro h; exact absurd h (by simp)

/-- Witness for C1 at a concrete input: a single whole-message fragment of
four bytes with fin completes. -/
theorem assembler_feed_complete_iff_witness :
    (0 < (0 : Int) ∧ (wsInit [0, 0, 0, 0]).in_progress = false →
      (wsFeedText (wsInit [0, 0, 0, 0]) 4 0 [5, 6, 7, 8] true).1 = false ∧
      (wsFeedText (wsInit [0, 0, 0, 0]) 4 0 [5, 6, 7, 8] true).2 = wsInit [0, 0, 0, 0]) ∧
    ((0 : Int) = 0 ∨ (wsInit [0, 0, 0, 0]).in_progress = true →
      ((wsFeedText (wsInit [0, 0, 0, 0]) 4 0 [5, 6, 7, 8] true).1 = true ↔
        true = true ∧
        0 < (wsFeedText (wsInit [0, 0, 0, 0]) 4 0 [5, 6, 7, 8] true).2.payload_len ∧
        (wsFeedText (wsInit [0, 0, 0, 0]) 4 0 [5, 6, 7, 8] true).2.max_written =
          (wsFeedText (wsInit [0, 0, 0, 0]) 4 0 [5, 6, 7, 8] true).2.payload_len) ∧
      ((wsFeedText (wsInit [0, 0, 0, 0]) 4 0 [5, 6, 7, 8] true).1 = true →
        (wsFeedText (wsInit [0, 0, 0, 0]) 4 0 [5, 6, 7, 8] true).2.in_progress = false)) :=
  assembler_feed_complete_iff (wsInit [0, 0, 0, 0]) 4 0 [5, 6, 7, 8] true
    (by decide) (by decide) (by decide) (by decide) (by decide) (by decide)

/-- C10. The completeness check does not detect gaps: a fragment at offset 0
of length 1 followed by a fin fragment at offset 3 ending exactly at
payload_len = 4 reports complete = true although positions 1 and 2 were
never written (they keep the initial buffer bytes). -/
theorem assembler_gap_reported_complete :
    ((wsFeedText ((wsFeedText (wsInit [0, 0, 0, 0]) 4 0 [7] false).2) 4 3 [9] true).1 = true)
    ∧ ((wsFeedText ((wsFeedText (wsInit [0, 0, 0, 0]) 4 0 [7] false).2) 4 3 [9] true).2.buf
        = [7, 0, 0, 9]) := by
  constructor
  · decide
  · decide

/-! ## Fragment sequences fed to the assembler -/

/-- One delivered WebSocket TEXT fragment: declared offset, carried bytes
and the fin flag. The declared payload_len is passed separately to feed. -/
structure Frag where
  off : Nat
  data : List Nat
  fin : Bool
deriving Repr, DecidableEq

/-- One feed call of a fragment, threading the (complete, state) pair. -/
def wsStep (pl : Int) (r : Bool × WsAssembler) (f : Frag) : Bool × WsAssembler :=
  wsFeedText r.2 pl (f.off : Int) f.data f.fin

/-- Feed a whole arrival sequence; the Bool is the result of the last feed. -/
def wsFeedMany (a : WsAssembler) (pl : Int) (fs : List Frag) : Bool × WsAssembler :=
  fs.foldl (wsStep pl) (false, a)

/-- A fragment is consistent with the logical message m when it carries
exactly the bytes of m at its declared offset and fits inside m. -/
def FragConsistent (m : List Nat) (f : Frag) : Prop :=
  f.data ≠ [] ∧ f.off + f.data.length ≤ m.length ∧
    f.data = (m.drop f.off).take f.data.length

/-- Position i is covered by some fragment of the sequence. -/
def Covers (fs : List Frag) (i : Nat) : Prop :=
  ∃ f ∈ fs, f.off ≤ i ∧ i < f.off + f.data.length

instance (m : List Nat) (f : Frag) : Decidable (FragConsistent m f) := by
  unfold FragConsistent
  infer_instance

instance (fs : List Frag) (i : Nat) : Decidable (Covers fs i) := by
  unfold Covers
  infer_instance

theorem listWrite_length (buf data : List Nat) (off : Nat)
    (h : off + data.length ≤ buf.length) :
    (listWrite buf off data).length = buf.length := by
  simp only [listWrite, List.length_append, List.length_take, List.length_drop]
  omega

theorem listWrite_getD (buf data : List Nat) (off : Nat)
    (h : off + data.length ≤ buf.length) (i : Nat) :
    (listWrite buf off data).getD i 0 =
      if off ≤ i ∧ i < off + data.length then data.getD (i - off) 0
      else buf.getD i 0 := by
  have htk : (buf.take off).length = off := by
    simp only [List.length_take]; omega
  simp only [listWrite, List.getD_eq_getElem?_getD]
  rcases lt_or_le i off with hlt | hge
  · rw [List.getElem?_append_left (by simp only [List.length_append, htk]; omega),
      List.getElem?_append_left (by rw [htk]; omega), List.getElem?_take]
    rw [if_pos hlt, if_neg (by omega)]
  · rcases lt_or_le i (off + data.length) with hlt2 | hge2
    · rw [List.getElem?_append_left (by simp only [List.length_append, htk]; omega),
        List.getElem?_append_right (by rw [htk]; omega)]
      rw [if_pos ⟨hge, hlt2⟩, htk]
    · rw [List.getElem?_append_right (by simp only [List.length_append, htk]; omega),
        List.getElem?_drop]
      rw [if_neg (by omega)]
      congr 2
      simp only [List.length_append, htk]
      omega

theorem fragConsistent_getD (m : List Nat) (f : Frag) (hf : FragConsistent m f)
    (i : Nat) (hle : f.off ≤ i) (hlt : i < f.off + f.data.length) :
    f.data.getD (i - f.off) 0 = m.getD i 0 := by
  obtain ⟨-, hfit, hdata⟩ := hf
  conv_lhs => rw [hdata]
  simp only [List.getD_eq_getElem?_getD, List.getElem?_take, List.getElem?_drop]
  rw [if_pos (by omega), Nat.add_sub_cancel' hle]

theorem wsFeedText_start (m : List Nat) (s : WsAssembler) (data : List Nat) (fin : Bool)
    (hcapeq : s.cap = s.buf.length) (hlen : m.length ≤ s.buf.length)
    (h64 : s.buf.length < 2 ^ 64) (hm : 0 < m.length)
    (hd : data ≠ []) (hfit : data.length ≤ m.length) :
    wsFeedText s (m.length : Int) 0 data fin =
      if fin = true ∧ data.length = m.length then
        (true, { s with buf := listWrite s.buf 0 data, payload_len := m.length,
                        max_written := data.length, in_progress := false })
      else
        (false, { s with buf := listWrite s.buf 0 data, payload_len := m.length,
                         max_written := data.length, in_progress := true }) := by
  have hdlen : data.length ≠ 0 := fun h => hd (List.length_eq_zero.mp h)
  have hm64 : (m.length : Int) < (2 : Int) ^ 64 := by
    have h : m.length < 2 ^ 64 := by omega
    exact_mod_cast h
  have hupl : usize (m.length : Int) = m.length := by
    unfold usize
    rw [Int.emod_eq_of_lt (Int.natCast_nonneg m.length) hm64]
    exact Int.toNat_natCast m.length
  have hc1 : ¬(s.cap = 0 ∨ data.length = 0) := by
    rintro (h | h)
    · omega
    · exact hdlen h
  have hc2 : ¬(m.length : Int) ≤ 0 := by
    simp only [not_le]
    exact_mod_cast hm
  have hc3 : ¬usize (m.length : Int) > s.cap := by rw [hupl]; omega
  have huz : usize 0 = 0 := by decide
  simp only [wsFeedText]
  rw [if_neg hc1, if_neg hc2, if_neg hc3]
  simp [huz, hupl, Nat.mod_eq_of_lt (show data.length < 2 ^ 64 by omega), hm,
    Nat.pos_of_ne_zero hdlen, show ¬(data.length > s.cap) by omega]
  simp [show data.length % 18446744073709551616 = data.length from Nat.mod_eq_of_lt (by omega),
    Nat.pos_of_ne_zero hdlen, show ¬ s.cap < data.length by omega]

theorem wsFeedText_accepted (m : List Nat) (s : WsAssembler) (f : Frag)
    (hcapeq : s.cap = s.buf.length) (hlen : m.length ≤ s.buf.length)
    (h64 : s.buf.length < 2 ^ 64) (hm : 0 < m.length)
    (hip : s.in_progress = true) (hpl : s.payload_len = m.length)
    (hf : FragConsistent m f) (hoff : f.off ≠ 0) :
    wsFeedText s (m.length : Int) (f.off : Int) f.data f.fin =
      if f.fin = true ∧
          (if f.off + f.data.length > s.max_written then f.off + f.data.length
           else s.max_written) = m.length then
        (true, { s with buf := listWrite s.buf f.off f.data,
                        max_written := if f.off + f.data.length > s.max_written then
                          f.off + f.data.length else s.max_written,
                        in_progress := false })
      else
        (false, { s with buf := listWrite s.buf f.off f.data,
                         max_written := if f.off + f.data.length > s.max_written then
                           f.off + f.data.length else s.max_written }) := by
  obtain ⟨hd, hfit, -⟩ := hf
  have hdlen : f.data.length ≠ 0 := fun h => hd (List.length_eq_zero.mp h)
  have hm64 : (m.length : Int) < (2 : Int) ^ 64 := by
    have h : m.length < 2 ^ 64 := by omega
    exact_mod_cast h
  have hupl : usize (m.length : Int) = m.length := by
    unfold usize
    rw [Int.emod_eq_of_lt (Int.natCast_nonneg m.length) hm64]
    exact Int.toNat_natCast m.length
  have hoffi : (f.off : Int) ≠ 0 := by exact_mod_cast hoff
  have huoff : usize (f.off : Int) = f.off := by
    unfold usize
    rw [Int.emod_eq_of_lt (Int.natCast_nonneg f.off) (by
      have h : f.off < 2 ^ 64 := by omega
      exact_mod_cast h)]
    exact Int.toNat_natCast f.off
  have hc1 : ¬(s.cap = 0 ∨ f.data.length = 0) := by
    rintro (h | h)
    · omega
    · exact hdlen h
  have hc2 : ¬(m.length : Int) ≤ 0 := by
    simp only [not_le]
    exact_mod_cast hm
  have hc3 : ¬usize (m.length : Int) > s.cap := by rw [hupl]; omega
  simp only [wsFeedText]
  rw [if_neg hc1, if_neg hc2, if_neg hc3]
  simp [hoffi, hip, hupl, huoff, hpl, hm,
    show (f.off + f.data.length) % 2 ^ 64 = f.off + f.data.length from Nat.mod_eq_of_lt (by omega),
    show ¬ s.cap < f.off + f.data.length by omega]
  simp [show (f.off + f.data.length) % 18446744073709551616 = f.off + f.data.length from
    Nat.mod_eq_of_lt (by omega), show ¬ s.cap < f.off + f.data.length by omega]

theorem wsFeedMid (m : List Nat) (gs : List Frag) :
    ∀ (r : Bool × WsAssembler),
      r.2.cap = r.2.buf.length → m.length ≤ r.2.buf.length → r.2.buf.length < 2 ^ 64 →
      0 < m.length → r.2.in_progress = true → r.2.payload_len = m.length →
      r.2.max_written ≤ m.length →
      (∀ f ∈ gs, FragConsistent m f ∧ f.off ≠ 0 ∧ f.fin = false) →
      ((gs.foldl (wsStep (m.length : Int)) r).2.cap = r.2.cap ∧
       (gs.foldl (wsStep (m.length : Int)) r).2.buf.length = r.2.buf.length ∧
       (gs.foldl (wsStep (m.length : Int)) r).2.in_progress = true ∧
       (gs.foldl (wsStep (m.length : Int)) r).2.payload_len = m.length ∧
       r.2.max_written ≤ (gs.foldl (wsStep (m.length : Int)) r).2.max_written ∧
       (gs.foldl (wsStep (m.length : Int)) r).2.max_written ≤ m.length ∧
       (∀ f ∈ gs, f.off + f.data.length ≤ (gs.foldl (wsStep (m.length : Int)) r).2.max_written) ∧
       (∀ i, i < m.length → r.2.buf.getD i 0 = m.getD i 0 →
         (gs.foldl (wsStep (m.length : Int)) r).2.buf.getD i 0 = m.getD i 0) ∧
       (∀ i, i < m.length → Covers gs i →
         (gs.foldl (wsStep (m.length : Int)) r).2.buf.getD i 0 = m.getD i 0)) := by
  induction gs with
  | nil =>
    intro r h1 h2 h3 h4 h5 h6 h7 h8
    refine ⟨rfl, rfl, h5, h6, le_refl _, h7, ?_, ?_, ?_⟩
    · intro f hf
      exact absurd hf (List.not_mem_nil f)
    · intro i _ h
      exact h
    · intro i _ hc
      obtain ⟨f, hf, -⟩ := hc
      exact absurd hf (List.not_mem_nil f)
  | cons g rest ih =>
    intro r h1 h2 h3 h4 h5 h6 h7 h8
    obtain ⟨hgc, hgoff, hgfin⟩ := h8 g (List.mem_cons_self g rest)
    have hgend : g.off + g.data.length ≤ m.length := hgc.2.1
    have hr1 : wsStep (m.length : Int) r g =
        (false, { r.2 with
                  buf := listWrite r.2.buf g.off g.data,
                  max_written := (if g.off + g.data.length > r.2.max_written then
                    g.off + g.data.length else r.2.max_written) }) := by
      unfold wsStep
      rw [wsFeedText_accepted m r.2 g h1 h2 h3 h4 h5 h6 hgc hgoff]
      rw [if_neg (by rintro ⟨h, -⟩; rw [hgfin] at h; exact Bool.noConfusion h)]
    rw [List.foldl_cons, hr1]
    have hwlen : (listWrite r.2.buf g.off g.data).length = r.2.buf.length :=
      listWrite_length r.2.buf g.data g.off (by omega)
    have hbufget : ∀ i, (listWrite r.2.buf g.off g.data).getD i 0 =
        if g.off ≤ i ∧ i < g.off + g.data.length then g.data.getD (i - g.off) 0
        else r.2.buf.getD i 0 :=
      listWrite_getD r.2.buf g.data g.off (by omega)
    obtain ⟨ic1, ic2, ic3, ic4, ic5, ic6, ic7, ic8, ic9⟩ :=
      ih (false, { r.2 with
            buf := listWrite r.2.buf g.off g.data,
            max_written := (if g.off + g.data.length > r.2.max_written then
              g.off + g.data.length else r.2.max_written) })
        (by simpa [hwlen] using h1) (by simpa [hwlen] using h2)
        (by simpa [hwlen] using h3) h4 (by simpa using h5) (by simpa using h6)
        (by simp only; split <;> omega)
        (fun f hf => h8 f (List.mem_cons_of_mem g hf))
    refine ⟨by simpa using ic1, by simpa [hwlen] using ic2, ic3, ic4, ?_, ic6, ?_, ?_, ?_⟩
    · refine le_trans ?_ ic5
      simp only
      split <;> omega
    · intro f hf
      rcases List.mem_cons.mp hf with hfg | hfr
      · subst hfg
        refine le_trans ?_ ic5
        simp only
        split <;> omega
      · exact ic7 f hfr
    · intro i hi hcor
      refine ic8 i hi ?_
      simp only [hbufget]
      split
      · rename_i hcover
        rw [fragConsistent_getD m g hgc i hcover.1 hcover.2]
      · exact hcor
    · intro i hi hcov
      obtain ⟨f, hf, hfle, hflt⟩ := hcov
      rcases List.mem_cons.mp hf with hfg | hfr
      · subst hfg
        refine ic8 i hi ?_
        simp only [hbufget]
        rw [if_pos ⟨hfle, hflt⟩, fragConsistent_getD m f hgc i hfle hflt]
      · exact ic9 i hi ⟨f, hfr, hfle, hflt⟩

/-- C2 counterexample. The three fragments are consistent with the 9-byte
message [1,1,1,2,2,2,3,3,3] (same payload_len 9, bytes at declared offsets,
fin exactly on the fragment ending at payload_len), yet in the arrival
order (offset 0, offset 6 with fin, offset 3) the second feed already
reports complete while the middle bytes were never written, and even after
all three fragments the buffer does not equal the concatenation: the late
middle fragment is dropped as an orphan. -/
theorem assembler_reassembly_order_counterexample :
    (∀ f ∈ [Frag.mk 0 [1, 1, 1] false, Frag.mk 6 [3, 3, 3] true, Frag.mk 3 [2, 2, 2] false],
      FragConsistent [1, 1, 1, 2, 2, 2, 3, 3, 3] f ∧
        (f.fin = true ↔ f.off + f.data.length = 9)) ∧
    ((wsFeedMany (wsInit (List.replicate 9 0)) 9
        [Frag.mk 0 [1, 1, 1] false, Frag.mk 6 [3, 3, 3] true]).1 = true) ∧
    ((wsFeedMany (wsInit (List.replicate 9 0)) 9
        [Frag.mk 0 [1, 1, 1] false, Frag.mk 6 [3, 3, 3] true]).2.buf.take 9
      ≠ [1, 1, 1, 2, 2, 2, 3, 3, 3]) ∧
    ((wsFeedMany (wsInit (List.replicate 9 0)) 9
        [Frag.mk 0 [1, 1, 1] false, Frag.mk 6 [3, 3, 3] true, Frag.mk 3 [2, 2, 2] false]).2.buf.take 9
      ≠ [1, 1, 1, 2, 2, 2, 3, 3, 3]) := by
  refine ⟨by decide, by decide, by decide, by decide⟩

/-- Assembler state right after an accepted message-start fragment
(offset 0) of the message m on a fresh assembler over buffer b0. -/
def wsAfterStart (b0 m : List Nat) (f1 : Frag) : WsAssembler :=
  { buf := listWrite b0 0 f1.data, cap := b0.length, payload_len := m.length,
    max_written := f1.data.length, in_progress := true }

/-- C2 amended. For every consistent fragment sequence with
payload_len ≤ capacity, delivered so that the offset-0 fragment comes
first, the fin fragment comes last and every byte position is covered by
some fragment, the completing (last) feed returns true and the first
payload_len buffer bytes equal the message placed at the declared
offsets — the middle fragments may arrive in any order. -/
theorem assembler_reassembly_amended
    (m b0 : List Nat) (f1 flast : Frag) (mid : List Frag)
    (hm : 0 < m.length) (hcap : m.length ≤ b0.length) (h64 : b0.length < 2 ^ 64)
    (hf1 : FragConsistent m f1) (hf1off : f1.off = 0) (hf1fin : f1.fin = false)
    (hmid : ∀ f ∈ mid, FragConsistent m f ∧ f.off ≠ 0 ∧ f.fin = false)
    (hfl : FragConsistent m flast) (hfloff : flast.off ≠ 0) (hflfin : flast.fin = true)
    (hcov : ∀ i, i < m.length → Covers (f1 :: mid ++ [flast]) i) :
    (wsFeedMany (wsInit b0) (m.length : Int) (f1 :: mid ++ [flast])).1 = true ∧
    (wsFeedMany (wsInit b0) (m.length : Int) (f1 :: mid ++ [flast])).2.buf.take m.length
      = m := by
  have hf1d : f1.data ≠ [] := hf1.1
  have hf1fit : f1.data.length ≤ m.length := by
    have h := hf1.2.1
    omega
  have hstep1 : wsStep (m.length : Int) (false, wsInit b0) f1 =
      (false, wsAfterStart b0 m f1) := by
    unfold wsStep
    have hcast : ((f1.off : Nat) : Int) = 0 := by rw [hf1off]; rfl
    rw [hcast, wsFeedText_start m (wsInit b0) f1.data f1.fin rfl hcap h64 hm hf1d hf1fit]
    rw [if_neg (by rintro ⟨h, -⟩; rw [hf1fin] at h; exact Bool.noConfusion h)]
    rfl
  have hs1buflen : (wsAfterStart b0 m f1).buf.length = b0.length := by
    show (listWrite b0 0 f1.data).length = b0.length
    exact listWrite_length b0 f1.data 0 (by omega)
  obtain ⟨ic1, ic2, ic3, ic4, ic5, ic6, ic7, ic8, ic9⟩ :=
    wsFeedMid m mid (false, wsAfterStart b0 m f1)
      (by show b0.length = _; rw [hs1buflen])
      (by rw [show (false, wsAfterStart b0 m f1).2 = wsAfterStart b0 m f1 from rfl, hs1buflen]
          exact hcap)
      (by rw [show (false, wsAfterStart b0 m f1).2 = wsAfterStart b0 m f1 from rfl, hs1buflen]
          exact h64)
      hm rfl rfl (by show f1.data.length ≤ m.length; exact hf1fit) hmid
  unfold wsFeedMany
  rw [show f1 :: mid ++ [flast] = f1 :: (mid ++ [flast]) from rfl, List.foldl_cons, hstep1,
    List.foldl_append, List.foldl_cons, List.foldl_nil]
  set F := mid.foldl (wsStep (m.length : Int)) (false, wsAfterStart b0 m f1) with hF
  have hFbuflen : F.2.buf.length = b0.length := by rw [ic2, hs1buflen]
  have hcapF : F.2.cap = F.2.buf.length := by
    rw [ic1, hFbuflen]
    rfl
  have hlenF : m.length ≤ F.2.buf.length := by rw [hFbuflen]; exact hcap
  have h64F : F.2.buf.length < 2 ^ 64 := by rw [hFbuflen]; exact h64
  have hflfit : flast.off + flast.data.length ≤ m.length := hfl.2.1
  have hstepF : wsStep (m.length : Int) F flast =
      wsFeedText F.2 (m.length : Int) (flast.off : Int) flast.data flast.fin := rfl
  rw [hstepF, wsFeedText_accepted m F.2 flast hcapF hlenF h64F hm ic3 ic4 hfl hfloff]
  have hs1mw : (wsAfterStart b0 m f1).max_written = f1.data.length := rfl
  have hlb : m.length ≤ F.2.max_written ∨ m.length ≤ flast.off + flast.data.length := by
    obtain ⟨f, hfmem, hfle, hflt⟩ := hcov (m.length - 1) (by omega)
    have hfmem2 : f = f1 ∨ f ∈ mid ∨ f = flast := by
      rcases List.mem_cons.mp hfmem with h | h
      · exact Or.inl h
      · rcases List.mem_append.mp h with h2 | h2
        · exact Or.inr (Or.inl h2)
        · exact Or.inr (Or.inr (List.mem_singleton.mp h2))
    rcases hfmem2 with h | h | h
    · left
      have hend : m.length ≤ f1.data.length := by
        subst h
        omega
      have hmw1 : f1.data.length ≤ F.2.max_written := by
        have h5 := ic5
        rw [show (false, wsAfterStart b0 m f1).2 = wsAfterStart b0 m f1 from rfl, hs1mw] at h5
        exact h5
      omega
    · left
      have hend := ic7 f h
      omega
    · right
      subst h
      omega
  have hmwf : (if flast.off + flast.data.length > F.2.max_written then
      flast.off + flast.data.length else F.2.max_written) = m.length := by
    have hub := ic6
    rcases hlb with h | h <;> split <;> omega
  rw [if_pos ⟨hflfin, hmwf⟩]
  refine ⟨rfl, ?_⟩
  have hwriteok : flast.off + flast.data.length ≤ F.2.buf.length := by omega
  have hfinlen : (listWrite F.2.buf flast.off flast.data).length = b0.length := by
    rw [listWrite_length F.2.buf flast.data flast.off hwriteok, hFbuflen]
  have hpoint : ∀ i, i < m.length →
      (listWrite F.2.buf flast.off flast.data).getD i 0 = m.getD i 0 := by
    intro i hi
    rw [listWrite_getD F.2.buf flast.data flast.off hwriteok i]
    split
    · rename_i hin
      exact fragConsistent_getD m flast hfl i hin.1 hin.2
    · rename_i hout
      obtain ⟨f, hfmem, hfle, hflt⟩ := hcov i hi
      have hfmem2 : f = f1 ∨ f ∈ mid ∨ f = flast := by
        rcases List.mem_cons.mp hfmem with h | h
        · exact Or.inl h
        · rcases List.mem_append.mp h with h2 | h2
          · exact Or.inr (Or.inl h2)
          · exact Or.inr (Or.inr (List.mem_singleton.mp h2))
      rcases hfmem2 with h | h | h
      · rw [h] at hfle hflt
        refine ic8 i hi ?_
        show (listWrite b0 0 f1.data).getD i 0 = m.getD i 0
        rw [listWrite_getD b0 f1.data 0 (by omega) i,
          if_pos ⟨Nat.zero_le i, by omega⟩]
        have hg := fragConsistent_getD m f1 hf1 i (by omega) (by omega)
        rw [hf1off] at hg
        simpa using hg
      · exact ic9 i hi ⟨f, h, hfle, hflt⟩
      · rw [h] at hfle hflt
        exact absurd ⟨hfle, hflt⟩ hout
  apply List.ext_getElem
  · simp only [List.length_take, hfinlen]
    omega
  · intro i h1 h2
    rw [List.getElem_take]
    have hi : i < m.length := h2
    have hgd := hpoint i hi
    rw [List.getD_eq_getElem _ _ (by rw [hfinlen]; omega),
      List.getD_eq_getElem _ _ h2] at hgd
    exact hgd

/-- Witness for the amended C2 at a concrete input: message [1,1,1,2,2,2,3,3,3],
fragments at offsets 0, 6, 3 with the middle fragments out of order but the
fin fragment last. -/
theorem assembler_reassembly_amended_witness :
    (wsFeedMany (wsInit (List.replicate 9 0)) ((9 : Nat) : Int)
      (Frag.mk 0 [1, 1, 1] false ::
        [Frag.mk 6 [3, 3, 3] false] ++ [Frag.mk 3 [2, 2, 2] true])).1 = true ∧
    (wsFeedMany (wsInit (List.replicate 9 0)) ((9 : Nat) : Int)
      (Frag.mk 0 [1, 1, 1] false ::
        [Frag.mk 6 [3, 3, 3] false] ++ [Frag.mk 3 [2, 2, 2] true])).2.buf.take 9
      = [1, 1, 1, 2, 2, 2, 3, 3, 3] := by
  have h := assembler_reassembly_amended [1, 1, 1, 2, 2, 2, 3, 3, 3]
    (List.replicate 9 0) (Frag.mk 0 [1, 1, 1] false) (Frag.mk 3 [2, 2, 2] true)
    [Frag.mk 6 [3, 3, 3] false]
    (by decide) (by decide) (by decide) (by decide) (by decide) (by decide)
    (by decide) (by decide) (by decide) (by decide) (by decide)
  simpa using h

/-! ## HTTP transport status mapping (src/xai_http.c, xai_http_post) -/

/-- Outcome of esp_http_client_perform for a synchronous POST: either the
transport fails, or it completes with an HTTP status code and the bytes
accumulated into the response buffer by the event handler. -/
inductive HttpOutcome where
  | performFailed
  | completed (status : Int) (body : List Nat)
deriving Repr, DecidableEq

/-- xai_http_post after the transport call: maps the HTTP status to the
result code and decides whether the response body is copied to the caller
(the malloc of the output copy is assumed to succeed). Returns the error
code and the copied-out body, if any. -/
def xai_http_post (t : HttpOutcome) : XaiErr × Option (List Nat) :=
  match t with
  | .performFailed => (.httpFailed, none)
  | .completed status body =>
    if status < 200 ∨ 300 ≤ status then
      if status = 401 then (.authFailed, none)
      else if status = 429 then (.rateLimit, none)
      else (.apiError, none)
    else (.ok, some body)

/-- C5. A synchronous POST whose transport completes succeeds exactly when
the HTTP status is in [200,300); 401 maps to AuthFailed, 429 to RateLimit,
any other non-2xx status to ApiError; and on every non-2xx status no
response body is copied out. -/
theorem http_post_status_mapping (status : Int) (body : List Nat) :
    ((xai_http_post (.completed status body)).1 = .ok ↔
      200 ≤ status ∧ status < 300) ∧
    (status = 401 → (xai_http_post (.completed status body)).1 = .authFailed) ∧
    (status = 429 → (xai_http_post (.completed status body)).1 = .rateLimit) ∧
    ((status < 200 ∨ 300 ≤ status) → status ≠ 401 → status ≠ 429 →
      (xai_http_post (.completed status body)).1 = .apiError) ∧
    ((status < 200 ∨ 300 ≤ status) → (xai_http_post (.completed status body)).2 = none) := by
  simp only [xai_http_post]
  refine ⟨?_, ?_, ?_, ?_, ?_⟩
  · constructor
    · intro h
      by_contra hc
      rw [if_pos (by omega)] at h
      split at h <;> (try split at h) <;> simp_all
    · intro h
      rw [if_neg (by omega)]
  · intro h
    subst h
    rfl
  · intro h
    subst h
    rfl
  · intro h h1 h2
    rw [if_pos h, if_neg h1, if_neg h2]
  · intro h
    rw [if_pos h]
    split <;> (try split) <;> rfl

/-- Witness for C5 at status 401 and at status 204. -/
theorem http_post_status_mapping_witness :
    (xai_http_post (.completed 401 [1, 2])).1 = .authFailed ∧
    (xai_http_post (.completed 401 [1, 2])).2 = none ∧
    ((xai_http_post (.completed 204 [1, 2])).1 = .ok ↔ 200 ≤ (204 : Int) ∧ (204 : Int) < 300) :=
  ⟨(http_post_status_mapping 401 [1, 2]).2.1 rfl,
   (http_post_status_mapping 401 [1, 2]).2.2.2.2 (by decide),
   (http_post_status_mapping 204 [1, 2]).1⟩

/-! ## Realtime voice client (src/xai_voice_realtime.c)

Turn text and wire messages are modelled as lists of characters (the C
code works on NUL-terminated byte strings). WebSocket sends are modelled
as always succeeding at the transport; the produced wire messages are
returned next to the new state. -/

/-- Quote sanitization of send_text_turn_locked: an ASCII double quote is
replaced by a single quote. -/
def quoteSubst (ch : Char) : Char := if ch = '"' then Char.ofNat 39 else ch

/-- The bounded copy into safe_text[384]: quote substitution per byte,
stopping when 383 characters were copied (j + 1 < sizeof(safe_text)). -/
def sanitizeTurnText (t : List Char) : List Char := (t.map quoteSubst).take 383

/-- Fixed part of the conversation.item.create message before the text. -/
def cicPfx : List Char :=
  "\x7b\"type\":\"conversation.item.create\",\"item\":\x7b\"type\":\"message\",\"role\":\"user\",\"content\":[\x7b\"type\":\"input_text\",\"text\":\"".data

/-- Fixed part of the conversation.item.create message after the text. -/
def cicSfx : List Char := "\"\x7d]\x7d\x7d".data

/-- The conversation.item.create message: snprintf into msg[640] keeps at
most 639 characters. -/
def convItemCreateMsg (t : List Char) : List Char :=
  (cicPfx ++ sanitizeTurnText t ++ cicSfx).take 639

/-- The response.create message. -/
def respCreateMsg : List Char := "\x7b\"type\":\"response.create\"\x7d".data

/-- The fields of xai_voice_client_s the checked claims depend on. `ws`
records whether the esp_websocket handle is present; session and buffer
configuration fields that only feed the session.update message or the
allocation sizes are omitted. -/
structure VoiceClient where
  connected : Bool
  session_ready : Bool
  in_turn : Bool
  ws : Bool
  assembler : WsAssembler
  pending_text : Option (List Char)
  queue_turn_before_ready : Bool
deriving Repr, DecidableEq

/-- send_text_turn_locked: guards, then the two wire messages, then
in_turn := true. Transport send failures are not modelled. -/
def send_text_turn_locked (c : VoiceClient) (text : List Char) :
    XaiErr × VoiceClient × List (List Char) :=
  if c.ws = false then (.invalidArg, c, [])
  else if c.connected = false then (.notReady, c, [])
  else if c.session_ready = false then (.notReady, c, [])
  else if c.in_turn = true then (.busy, c, [])
  else (.ok, { c with in_turn := true }, [convItemCreateMsg text, respCreateMsg])

/-- xai_voice_client_send_text_turn: before the session is ready either
queue one pending turn (overwriting a previous one) or fail with
NotReady; otherwise send under the lock. -/
def xai_voice_client_send_text_turn (c : VoiceClient) (text : List Char) :
    XaiErr × VoiceClient × List (List Char) :=
  if c.session_ready = false then
    if c.queue_turn_before_ready = true then
      (.ok, { c with pending_text := some text }, [])
    else (.notReady, c, [])
  else send_text_turn_locked c text

/-- xai_voice_client_disconnect: tear down the socket and clear the
session flags and the assembler; an already-closed client is returned
unchanged (and no Disconnected transition is emitted). -/
def xai_voice_client_disconnect (c : VoiceClient) : VoiceClient :=
  if c.ws = false then c
  else { c with ws := false, connected := false, session_ready := false,
                in_turn := false, assembler := wsReset c.assembler }

/-- WEBSOCKET_EVENT_DISCONNECTED branch of websocket_event_handler. -/
def wsEventDisconnected (c : VoiceClient) : VoiceClient :=
  { c with connected := false, session_ready := false, in_turn := false,
           assembler := wsReset c.assembler }

/-- The session.updated branch of handle_json_message: mark the session
ready, then issue the queued turn, if any, clearing the slot first; the
result code of the queued send is discarded. -/
def handleSessionUpdated (c : VoiceClient) : VoiceClient × List (List Char) :=
  let c1 : VoiceClient := { c with session_ready := true }
  match c1.pending_text with
  | some t =>
    let c2 : VoiceClient := { c1 with pending_text := none }
    let r := send_text_turn_locked c2 t
    (r.2.1, r.2.2)
  | none => (c1, [])

/-- C4 counterexample. A connected client with a queued pending turn is
disconnected: the session flags and the assembler are cleared, but the
pending queued turn is NOT discarded — it survives the transition to
Disconnected, contradicting the claim that the slot is empty. -/
theorem voice_disconnect_keeps_pending_counterexample :
    ((xai_voice_client_disconnect
      { connected := true, session_ready := false, in_turn := false, ws := true,
        assembler := wsInit [0], pending_text := some ['h', 'i'],
        queue_turn_before_ready := true }).pending_text = some ['h', 'i']) ∧
    ((xai_voice_client_disconnect
      { connected := true, session_ready := false, in_turn := false, ws := true,
        assembler := wsInit [0], pending_text := some ['h', 'i'],
        queue_turn_before_ready := true }).session_ready = false) ∧
    some ['h', 'i'] ≠ (none : Option (List Char)) := by
  refine ⟨by decide, by decide, by decide⟩

/-- C4 amended. After every transition to Disconnected (the disconnect
call on an open client, or the WebSocket disconnect event), the assembler
in_progress flag, session_ready and in_turn are all false, and the
pending queued turn is retained unchanged rather than discarded. -/
theorem voice_disconnected_state_amended (c : VoiceClient) :
    (c.ws = true →
      (xai_voice_client_disconnect c).assembler.in_progress = false ∧
      (xai_voice_client_disconnect c).session_ready = false ∧
      (xai_voice_client_disconnect c).in_turn = false ∧
      (xai_voice_client_disconnect c).pending_text = c.pending_text) ∧
    ((wsEventDisconnected c).assembler.in_progress = false ∧
      (wsEventDisconnected c).session_ready = false ∧
      (wsEventDisconnected c).in_turn = false ∧
      (wsEventDisconnected c).pending_text = c.pending_text) := by
  constructor
  · intro h
    unfold xai_voice_client_disconnect
    rw [if_neg (by simp [h])]
    exact ⟨rfl, rfl, rfl, rfl⟩
  · exact ⟨rfl, rfl, rfl, rfl⟩

/-- Witness for the amended C4 at a concrete connected client. -/
theorem voice_disconnected_state_amended_witness :
    ((VoiceClient.mk true true true true (wsInit [0]) (some ['h', 'i']) true).ws = true →
      (xai_voice_client_disconnect
        (VoiceClient.mk true true true true (wsInit [0]) (some ['h', 'i']) true)).assembler.in_progress = false ∧
      (xai_voice_client_disconnect
        (VoiceClient.mk true true true true (wsInit [0]) (some ['h', 'i']) true)).session_ready = false ∧
      (xai_voice_client_disconnect
        (VoiceClient.mk true true true true (wsInit [0]) (some ['h', 'i']) true)).in_turn = false ∧
      (xai_voice_client_disconnect
        (VoiceClient.mk true true true true (wsInit [0]) (some ['h', 'i']) true)).pending_text =
        (VoiceClient.mk true true true true (wsInit [0]) (some ['h', 'i']) true).pending_text) ∧
    ((wsEventDisconnected
        (VoiceClient.mk true true true true (wsInit [0]) (some ['h', 'i']) true)).assembler.in_progress = false ∧
      (wsEventDisconnected
        (VoiceClient.mk true true true true (wsInit [0]) (some ['h', 'i']) true)).session_ready = false ∧
      (wsEventDisconnected
        (VoiceClient.mk true true true true (wsInit [0]) (some ['h', 'i']) true)).in_turn = false ∧
      (wsEventDisconnected
        (VoiceClient.mk true true true true (wsInit [0]) (some ['h', 'i']) true)).pending_text =
        (VoiceClient.mk true true true true (wsInit [0]) (some ['h', 'i']) true).pending_text) :=
  voice_disconnected_state_amended
    (VoiceClient.mk true true true true (wsInit [0]) (some ['h', 'i']) true)

/-- A client that is connected but not yet session-ready, with queueing
enabled. -/
def sampleQueueClient : VoiceClient :=
  VoiceClient.mk true false false true (wsInit [0]) none true

/-- A session-ready idle client. -/
def sampleReadyClient : VoiceClient :=
  VoiceClient.mk true true false true (wsInit [0]) none false

/-- C6. Pre-ready send_text_turn with the queue flag set returns Ok,
sends nothing, stores the text as the single pending turn and a later
pre-ready call overwrites it; with the flag unset it returns NotReady;
and on session.updated the queued turn is sent (the two wire messages)
and the pending slot is cleared. -/
theorem voice_queued_turn_policy (c : VoiceClient) (t t2 : List Char)
    (hnr : c.session_ready = false) :
    (c.queue_turn_before_ready = true →
      xai_voice_client_send_text_turn c t =
        (.ok, { c with pending_text := some t }, []) ∧
      (xai_voice_client_send_text_turn
        (xai_voice_client_send_text_turn c t).2.1 t2).2.1.pending_text = some t2) ∧
    (c.queue_turn_before_ready = false →
      xai_voice_client_send_text_turn c t = (.notReady, c, [])) ∧
    (∀ c' : VoiceClient, ∀ t' : List Char, c'.pending_text = some t' →
      c'.ws = true → c'.connected = true → c'.in_turn = false →
      handleSessionUpdated c' =
        ({ c' with session_ready := true, pending_text := none, in_turn := true },
         [convItemCreateMsg t', respCreateMsg])) := by
  refine ⟨?_, ?_, ?_⟩
  · intro hq
    constructor
    · simp [xai_voice_client_send_text_turn, hnr, hq]
    · simp [xai_voice_client_send_text_turn, hnr, hq]
  · intro hq
    simp [xai_voice_client_send_text_turn, hnr, hq]
  · intro c' t' hp hws hcon hturn
    simp [handleSessionUpdated, hp, send_text_turn_locked, hws, hcon, hturn]

/-- Witness for C6 at a concrete pre-ready client with queueing on. -/
theorem voice_queued_turn_policy_witness :
    (sampleQueueClient.queue_turn_before_ready = true →
      xai_voice_client_send_text_turn sampleQueueClient ['a'] =
        (.ok, { sampleQueueClient with pending_text := some ['a'] }, []) ∧
      (xai_voice_client_send_text_turn
        (xai_voice_client_send_text_turn sampleQueueClient ['a']).2.1 ['b']).2.1.pending_text
        = some ['b']) ∧
    (sampleQueueClient.queue_turn_before_ready = false →
      xai_voice_client_send_text_turn sampleQueueClient ['a'] =
        (.notReady, sampleQueueClient, [])) ∧
    (∀ c' : VoiceClient, ∀ t' : List Char, c'.pending_text = some t' →
      c'.ws = true → c'.connected = true → c'.in_turn = false →
      handleSessionUpdated c' =
        ({ c' with session_ready := true, pending_text := none, in_turn := true },
         [convItemCreateMsg t', respCreateMsg])) :=
  voice_queued_turn_policy sampleQueueClient ['a'] ['b'] rfl

/-- C9. Every text turn sent by a ready client succeeds with Ok, and the
text embedded in the conversation.item.create wire message is the quote
substitution of the input truncated to its first 383 characters; the
embedded text length is min 383 (input length), so longer inputs are
silently truncated with no error. -/
theorem voice_text_turn_truncation (c : VoiceClient) (t : List Char)
    (hws : c.ws = true) (hcon : c.connected = true)
    (hready : c.session_ready = true) (hturn : c.in_turn = false) :
    (xai_voice_client_send_text_turn c t).1 = .ok ∧
    (xai_voice_client_send_text_turn c t).2.2 =
      [cicPfx ++ (t.map quoteSubst).take 383 ++ cicSfx, respCreateMsg] ∧
    ((t.map quoteSubst).take 383).length = min 383 t.length := by
  have hbound : cicPfx.length + cicSfx.length ≤ 256 := by decide
  have hmsg : convItemCreateMsg t = cicPfx ++ sanitizeTurnText t ++ cicSfx := by
    unfold convItemCreateMsg
    apply List.take_of_length_le
    have h3 : (sanitizeTurnText t).length ≤ 383 := by
      unfold sanitizeTurnText
      simp [List.length_take]
    simp only [List.length_append]
    omega
  refine ⟨?_, ?_, ?_⟩
  · simp [xai_voice_client_send_text_turn, send_text_turn_locked, hws, hcon, hready, hturn]
  · simp [xai_voice_client_send_text_turn, send_text_turn_locked, hws, hcon, hready, hturn,
      hmsg, sanitizeTurnText]
  · simp [List.length_take, List.length_map]

/-- Witness for C9 at a concrete ready client and a text with a quote. -/
theorem voice_text_turn_truncation_witness :
    (xai_voice_client_send_text_turn sampleReadyClient ['"', 'x']).1 = .ok ∧
    (xai_voice_client_send_text_turn sampleReadyClient ['"', 'x']).2.2 =
      [cicPfx ++ ((['"', 'x'].map quoteSubst).take 383) ++ cicSfx, respCreateMsg] ∧
    ((['"', 'x'].map quoteSubst).take 383).length = min 383 (['"', 'x'].length) :=
  voice_text_turn_truncation sampleReadyClient ['"', 'x'] rfl rfl rfl rfl

/-! ## JSON values and the cJSON parser

The repository parses and builds JSON through the third-party cJSON
library, which is not part of the repository sources. The value type and
the parser below stand in for it. -/

/-- A parsed JSON value (cJSON item). C doubles only ever reach the model
as integers here, so numbers carry an Int. -/
inductive Json where
  | null
  | bool (b : Bool)
  | num (n : Int)
  | str (s : String)
  | arr (items : List Json)
  | obj (fields : List (String × Json))

/-- Modelled from the spec: cJSON whitespace skipping — every character
with code at most 32 is skipped (buffer_skip_whitespace). -/
def skipWs : List Char → List Char
  | [] => []
  | c :: rest => if c.toNat ≤ 32 then skipWs rest else c :: rest

/-- Value of a hexadecimal digit. -/
def hexVal (c : Char) : Option Nat :=
  if '0' ≤ c ∧ c ≤ '9' then some (c.toNat - 48)
  else if 'a' ≤ c ∧ c ≤ 'f' then some (c.toNat - 87)
  else if 'A' ≤ c ∧ c ≤ 'F' then some (c.toNat - 55)
  else none

/-- Modelled from the spec: body of a JSON string after the opening
quote, with the standard escapes; a \u escape is decoded to the single
code point (surrogate pairs are not combined, which no checked claim
depends on). Returns the decoded characters and the rest of the input. -/
def parseStringBody : Nat → List Char → Option (List Char × List Char)
  | 0, _ => none
  | _ + 1, [] => none
  | fuel + 1, c :: rest =>
    if c = '"' then some ([], rest)
    else if c = '\\' then
      match rest with
      | 'u' :: h1 :: h2 :: h3 :: h4 :: rest2 =>
        match hexVal h1, hexVal h2, hexVal h3, hexVal h4 with
        | some a, some b, some d, some e =>
          match parseStringBody fuel rest2 with
          | some (sres, rem) => some (Char.ofNat (((a * 16 + b) * 16 + d) * 16 + e) :: sres, rem)
          | none => none
        | _, _, _, _ => none
      | e :: rest2 =>
        let dec : Option Char :=
          if e = '"' then some '"'
          else if e = '\\' then some '\\'
          else if e = '/' then some '/'
          else if e = 'b' then some (Char.ofNat 8)
          else if e = 'f' then some (Char.ofNat 12)
          else if e = 'n' then some (Char.ofNat 10)
          else if e = 'r' then some (Char.ofNat 13)
          else if e = 't' then some (Char.ofNat 9)
          else none
        match dec with
        | some ch =>
          match parseStringBody fuel rest2 with
          | some (sres, rem) => some (ch :: sres, rem)
          | none => none
        | none => none
      | [] => none
    else
      match parseStringBody fuel rest with
      | some (sres, rem) => some (c :: sres, rem)
      | none => none

/-- Characters cJSON copies into its number scratch buffer. -/
def numChar (c : Char) : Bool :=
  c.isDigit || c = '+' || c = '-' || c = 'e' || c = 'E' || c = '.'

/-- Modelled from the spec: number parsing; the numeric value is the
leading integer part (no checked claim inspects parsed numbers). -/
def parseNumber (l : List Char) : Option (Json × List Char) :=
  let span := l.takeWhile numChar
  let rest := l.dropWhile numChar
  if span = [] then none
  else
    let signed : Bool × List Char :=
      match span with
      | '-' :: tl => (true, tl)
      | _ => (false, span)
    let intDigits := signed.2.takeWhile Char.isDigit
    if intDigits = [] then none
    else
      let v : Int := intDigits.foldl (fun acc c => acc * 10 + ((c.toNat - 48 : Nat) : Int)) 0
      some (.num (if signed.1 then -v else v), rest)

mutual

/-- Modelled from the spec: cJSON parse_value on fuel. -/
def parseValue : Nat → List Char → Option (Json × List Char)
  | 0, _ => none
  | fuel + 1, input =>
    match skipWs input with
    | [] => none
    | 'n' :: 'u' :: 'l' :: 'l' :: rest => some (.null, rest)
    | 't' :: 'r' :: 'u' :: 'e' :: rest => some (.bool true, rest)
    | 'f' :: 'a' :: 'l' :: 's' :: 'e' :: rest => some (.bool false, rest)
    | '"' :: rest =>
      match parseStringBody (rest.length + 1) rest with
      | some (sres, rem) => some (.str ⟨sres⟩, rem)
      | none => none
    | '[' :: rest => parseArray fuel (skipWs rest)
    | c :: rest =>
      if c = Char.ofNat 123 then parseObject fuel (skipWs rest)
      else if c = '-' ∨ c.isDigit then parseNumber (c :: rest)
      else none

/-- Array items after the opening bracket and whitespace. -/
def parseArray : Nat → List Char → Option (Json × List Char)
  | 0, _ => none
  | fuel + 1, l =>
    match l with
    | ']' :: rest => some (.arr [], rest)
    | _ =>
      match parseValue fuel l with
      | some (v, rem) => parseArrayTail fuel [v] rem
      | none => none

/-- Remaining array items. -/
def parseArrayTail : Nat → List Json → List Char → Option (Json × List Char)
  | 0, _, _ => none
  | fuel + 1, acc, l =>
    match skipWs l with
    | ',' :: rest =>
      match parseValue fuel rest with
      | some (v, rem) => parseArrayTail fuel (acc ++ [v]) rem
      | none => none
    | ']' :: rest => some (.arr acc, rest)
    | _ => none

/-- Object members after the opening brace and whitespace. -/
def parseObject : Nat → List Char → Option (Json × List Char)
  | 0, _ => none
  | _ + 1, [] => none
  | fuel + 1, c :: rest =>
    if c = Char.ofNat 125 then some (.obj [], rest)
    else parseMember fuel [] (c :: rest)

/-- One key/value member and the members after it. -/
def parseMember : Nat → List (String × Json) → List Char → Option (Json × List Char)
  | 0, _, _ => none
  | fuel + 1, acc, l =>
    match skipWs l with
    | '"' :: rest =>
      match parseStringBody (rest.length + 1) rest with
      | some (k, rem) =>
        match skipWs rem with
        | ':' :: rem2 =>
          match parseValue fuel rem2 with
          | some (v, rem3) =>
            match skipWs rem3 with
            | ',' :: rem4 => parseMember fuel (acc ++ [(⟨k⟩, v)]) rem4
            | c :: rem4 =>
              if c = Char.ofNat 125 then some (.obj (acc ++ [(⟨k⟩, v)]), rem4)
              else none
            | [] => none
          | none => none
        | _ => none
      | none => none
    | _ => none

end

/-- Modelled from the spec: cJSON_Parse — skip leading whitespace, parse
one JSON value; trailing input is ignored; NULL on failure. -/
def jsonParse (s : List Char) : Option Json :=
  match parseValue (2 * s.length + 8) (skipWs s) with
  | some (v, _) => some v
  | none => none

/-- ASCII lower-casing, for the case-insensitive cJSON item lookup. -/
def asciiLower (c : Char) : Char :=
  if 'A' ≤ c ∧ c ≤ 'Z' then Char.ofNat (c.toNat + 32) else c

/-- Modelled from the spec: cJSON_GetObjectItem — first field whose name
matches case-insensitively; NULL when absent or not an object. -/
def jsonGetObjectItem (j : Json) (key : String) : Option Json :=
  match j with
  | .obj fields =>
    (fields.find? (fun kv => kv.1.data.map asciiLower == key.data.map asciiLower)).map Prod.snd
  | _ => none

/-- cJSON_IsString. -/
def jsonIsString : Json → Bool
  | .str _ => true
  | _ => false

/-- cJSON_IsArray. -/
def jsonIsArray : Json → Bool
  | .arr _ => true
  | _ => false

/-- cJSON_GetArraySize. -/
def jsonArraySize : Json → Nat
  | .arr items => items.length
  | _ => 0

/-- cJSON_GetArrayItem. -/
def jsonArrayItem (j : Json) (i : Nat) : Option Json :=
  match j with
  | .arr items => items[i]?
  | _ => none

/-- The valuestring of a string item. -/
def jsonStrVal : Json → Option String
  | .str s => some s
  | _ => none

/-- xai_json_parse_stream_chunk (src/xai_json.c): the [DONE] marker, else
parse the chunk, extract choices[0].delta.content as the content delta
and set is_done when choices[0].finish_reason is a string. Returns
(result, content delta, is_done). -/
def xai_json_parse_stream_chunk (jsonStr : List Char) : XaiErr × Option (List Char) × Bool :=
  if jsonStr = "[DONE]".data then (.ok, none, true)
  else
    match jsonParse jsonStr with
    | none => (.parseFailed, none, false)
    | some root =>
      match jsonGetObjectItem root "choices" with
      | some choices =>
        if jsonIsArray choices = true ∧ 0 < jsonArraySize choices then
          match jsonArrayItem choices 0 with
          | some choice =>
            let contentDelta : Option (List Char) :=
              match jsonGetObjectItem choice "delta" with
              | some delta =>
                match jsonGetObjectItem delta "content" with
                | some content =>
                  match jsonStrVal content with
                  | some sres => some sres.data
                  | none => none
                | none => none
              | none => none
            let isDone : Bool :=
              match jsonGetObjectItem choice "finish_reason" with
              | some fr => jsonIsString fr
              | none => false
            (.ok, contentDelta, isDone)
          | none => (.ok, none, false)
        else (.ok, none, false)
      | none => (.ok, none, false)

/-! ## SSE stream tokenizer (src/xai_stream.c) -/

/-- sse_state_t. -/
inductive SseState where
  | idle
  | field
  | value
  | eol
deriving Repr, DecidableEq

/-- xai_stream_parser_t: the automaton state, the field-name buffer
(field_buffer[32], so at most 31 characters) and the data buffer
(8192 bytes, so at most 8191 accumulated characters). The callback is
modelled by the returned event list. -/
structure SseTokenizer where
  state : SseState
  field_buffer : List Char
  data_buffer : List Char
deriving Repr, DecidableEq

/-- xai_stream_parser_create: zeroed state. -/
def sseCreate : SseTokenizer := ⟨.idle, [], []⟩

/-- One callback invocation: a content delta, or the end-of-stream
sentinel callback(NULL, 0). -/
inductive SseEvent where
  | contentDelta (s : List Char)
  | endOfStream
deriving Repr, DecidableEq

/-- Dispatch of a completed data line (SSE_STATE_VALUE, newline): the
literal [DONE] emits the sentinel; otherwise the chunk is parsed and the
content delta is delivered when parsing succeeded, followed by the
sentinel when is_done was set. -/
def sseDispatchData (s : List Char) : List SseEvent :=
  if s = "[DONE]".data then [.endOfStream]
  else
    let r := xai_json_parse_stream_chunk s
    (match r.1, r.2.1 with
     | .ok, some d => [SseEvent.contentDelta d]
     | _, _ => []) ++
    (if r.2.2 = true then [SseEvent.endOfStream] else [])

/-- Append to field_buffer while field_len < sizeof(field_buffer) - 1. -/
def fieldAppend (fb : List Char) (c : Char) : List Char :=
  if fb.length < 31 then fb ++ [c] else fb

/-- The SSE_STATE_IDLE transition: newlines are ignored, any other
character starts a field name (the d branch and the default branch
perform the same action). -/
def sseStepIdle (p : SseTokenizer) (c : Char) : SseTokenizer :=
  if c = '\n' ∨ c = '\r' then p
  else { p with state := .field, field_buffer := [c] }

/-- xai_stream_parser_feed over one chunk. The space after a colon is
skipped only when it is available inside the same chunk
(if (i + 1 < len && data[i + 1] == ' ') i++), exactly as in the C code;
the EOL reprocessing (i--) is inlined as the idle step. Returns the new
state and the emitted callback events. -/
def sseFeed (p : SseTokenizer) (l : List Char) : SseTokenizer × List SseEvent :=
  match l with
  | [] => (p, [])
  | c :: rest =>
    match p.state with
    | .idle => sseFeed (sseStepIdle p c) rest
    | .field =>
      if c = ':' then
        let p1 : SseTokenizer := { p with state := .value }
        let p2 : SseTokenizer :=
          if p.field_buffer = "data".data then { p1 with data_buffer := [] } else p1
        match rest with
        | ' ' :: rest2 => sseFeed p2 rest2
        | other => sseFeed p2 other
      else if c = '\n' ∨ c = '\r' then sseFeed { p with state := .idle } rest
      else sseFeed { p with field_buffer := fieldAppend p.field_buffer c } rest
    | .value =>
      if c = '\n' ∨ c = '\r' then
        if p.field_buffer = "data".data then
          let evs := sseDispatchData p.data_buffer
          let r := sseFeed { p with state := .eol, data_buffer := [] } rest
          (r.1, evs ++ r.2)
        else sseFeed { p with state := .eol } rest
      else
        if p.field_buffer = "data".data then
          if p.data_buffer.length < 8191 then
            sseFeed { p with data_buffer := p.data_buffer ++ [c] } rest
          else sseFeed p rest
        else sseFeed p rest
    | .eol =>
      if c = '\n' ∨ c = '\r' then sseFeed p rest
      else sseFeed (sseStepIdle p c) rest

/-- Feeding a sequence of chunks, concatenating the emitted events. -/
def sseFeedChunks (p : SseTokenizer) (chunks : List (List Char)) :
    SseTokenizer × List SseEvent :=
  match chunks with
  | [] => (p, [])
  | ch :: rest =>
    let r := sseFeed p ch
    let r2 := sseFeedChunks r.1 rest
    (r2.1, r.2 ++ r2.2)

/-- C3. Feeding the terminating SSE event "data: [DONE]" to the tokenizer
as one buffer emits the end-of-stream sentinel, but feeding the same
bytes one byte per feed call emits nothing: at the chunk boundary after
the colon the space is not skipped, the accumulated data line becomes
" [DONE]" with a leading space, which fails both the [DONE] comparison
and the JSON parse. The two callback sequences differ, refuting the
byte-at-a-time equivalence claim at this input. -/
theorem sse_byte_at_a_time_divergence :
    (sseFeed sseCreate "data: [DONE]\n\n".data).2 = [SseEvent.endOfStream] ∧
    (sseFeedChunks sseCreate ("data: [DONE]\n\n".data.map (fun c => [c]))).2 = [] := by
  constructor
  · decide
  · decide

/-! ## Chat request building (src/xai_json.c, xai_json_build_chat_request) -/

/-- xai_message_role_t as its C integer value; values outside 0..3 hit the
default branch of the role switch. -/
def roleStr (role : Nat) : Option String :=
  match role with
  | 0 => some "system"
  | 1 => some "user"
  | 2 => some "assistant"
  | 3 => some "tool"
  | _ => none

/-- xai_image_t as used by the builder (only url and detail are read). -/
structure ChatImage where
  url : String
  detail : Option String

/-- xai_tool_call_t. -/
structure ToolCallIn where
  id : String
  name : String
  arguments : String

/-- xai_message_t; the image and tool-call counts are the list lengths. -/
structure ChatMessage where
  role : Nat
  content : Option String
  name : Option String
  tool_call_id : Option String
  images : List ChatImage
  tool_calls : List ToolCallIn

/-- xai_tool_t. -/
structure ToolDef where
  name : String
  description : Option String
  parameters_json : Option String

/-- xai_search_source_t: the tagged union over the four source kinds. -/
inductive SearchSource where
  | web (allowed_websites : Option (List String)) (excluded_websites : Option (List String))
      (safe_search : Bool)
  | news (country : Option String) (excluded_websites : Option (List String))
      (safe_search : Bool)
  | x (included_x_handles : Option (List String)) (excluded_x_handles : Option (List String))
      (post_favorite_count_min : Nat) (post_view_count_min : Nat)
      (enable_image_understanding : Bool) (enable_video_understanding : Bool)
  | rss (rss_links : Option (List String))

/-- xai_search_params_t; mode carries the C enum value
(0 = off, 1 = auto, 2 = on); from_date and to_date are never read by the
builder. -/
structure SearchParams where
  mode : Nat
  return_citations : Bool
  from_date : Option String
  to_date : Option String
  max_results : Nat
  sources : List SearchSource

/-- xai_options_t. temperature, top_p and the penalties are C floats of
which the builder only ever tests the sign, so they are carried as Int. -/
structure ChatOptions where
  model : Option String
  temperature : Int
  max_tokens : Nat
  stream : Bool
  stop : List String
  top_p : Int
  presence_penalty : Int
  frequency_penalty : Int
  user_id : Option String
  search_params : Option SearchParams
  reasoning_effort : Option String
  parallel_function_calling : Bool
  tools : List ToolDef
  tool_choice : Option String

/-- A NULL-terminated char** serialized as a JSON string array. -/
def buildStrArr (xs : List String) : Json := .arr (xs.map .str)

/-- One image content part of a multi-modal message. -/
def buildImagePart (img : ChatImage) : Json :=
  .obj [("type", .str "image_url"),
        ("image_url", .obj (("url", .str img.url) ::
          (match img.detail with
           | some d => [("detail", .str d)]
           | none => [])))]

/-- One serialized tool invocation of an assistant message. -/
def buildToolCallJson (tc : ToolCallIn) : Json :=
  .obj [("id", .str tc.id), ("type", .str "function"),
        ("function", .obj [("name", .str tc.name), ("arguments", .str tc.arguments)])]

/-- One message object of the messages array. -/
def buildMessageJson (msg : ChatMessage) : Except XaiErr Json :=
  match roleStr msg.role with
  | none => .error .invalidArg
  | some r =>
    let contentFields : List (String × Json) :=
      match msg.content with
      | none => []
      | some content =>
        if 0 < msg.images.length then
          [("content", .arr (.obj [("type", .str "text"), ("text", .str content)] ::
            msg.images.map buildImagePart))]
        else [("content", .str content)]
    let nameFields : List (String × Json) :=
      match msg.name with
      | some n => [("name", .str n)]
      | none => []
    let tcidFields : List (String × Json) :=
      match msg.tool_call_id with
      | some tid => [("tool_call_id", .str tid)]
      | none => []
    let toolCallFields : List (String × Json) :=
      if 0 < msg.tool_calls.length then
        [("tool_calls", .arr (msg.tool_calls.map buildToolCallJson))]
      else []
    .ok (.obj ([("role", .str r)] ++ contentFields ++ nameFields ++ tcidFields
      ++ toolCallFields))

/-- One entry of the search sources array: the type tag and only the
fields that apply to the variant. -/
def buildSearchSource (src : SearchSource) : Json :=
  match src with
  | .web allowed excluded safe =>
    .obj ([("type", .str "web")] ++
      (match allowed with
       | some l => [("allowed_websites", buildStrArr l)]
       | none => []) ++
      (match excluded with
       | some l => [("excluded_websites", buildStrArr l)]
       | none => []) ++
      (if safe = true then [("safe_search", .bool true)] else []))
  | .news country excluded safe =>
    .obj ([("type", .str "news")] ++
      (match country with
       | some cc => [("country", .str cc)]
       | none => []) ++
      (match excluded with
       | some l => [("excluded_websites", buildStrArr l)]
       | none => []) ++
      (if safe = true then [("safe_search", .bool true)] else []))
  | .x included excluded favMin viewMin img vid =>
    .obj ([("type", .str "x")] ++
      (match included with
       | some l => [("included_x_handles", buildStrArr l)]
       | none => []) ++
      (match excluded with
       | some l => [("excluded_x_handles", buildStrArr l)]
       | none => []) ++
      (if 0 < favMin then [("post_favorite_count_min", .num (favMin : Int))] else []) ++
      (if 0 < viewMin then [("post_view_count_min", .num (viewMin : Int))] else []) ++
      (if img = true then [("enable_image_understanding", .bool true)] else []) ++
      (if vid = true then [("enable_video_understanding", .bool true)] else []))
  | .rss links =>
    .obj ([("type", .str "rss")] ++
      (match links with
       | some l => [("rss_links", buildStrArr l)]
       | none => []))

/-- The top-level search object (only built when mode is not off). -/
def buildSearchJson (sp : SearchParams) : Json :=
  .obj ([("mode", .str (if sp.mode = 1 then "auto" else "on"))] ++
    (if sp.return_citations = true then [("return_citations", .bool true)] else []) ++
    (if 0 < sp.max_results then [("max_results", .num (sp.max_results : Int))] else []) ++
    (if 0 < sp.sources.length then
      [("sources", .arr (sp.sources.map buildSearchSource))]
     else []))

/-- One entry of the tools array; the caller-supplied parameters JSON
schema is embedded as parsed JSON, and skipped when it does not parse. -/
def buildToolJson (tool : ToolDef) : Json :=
  .obj [("type", .str "function"),
        ("function", .obj ([("name", .str tool.name)] ++
          (match tool.description with
           | some d => [("description", .str d)]
           | none => []) ++
          (match tool.parameters_json with
           | some pj =>
             match jsonParse pj.data with
             | some params => [("parameters", params)]
             | none => []
           | none => [])))]

/-- xai_json_build_chat_request, up to the final serialization into the
caller buffer (the claims concern the JSON object that is serialized).
NULL buffer arguments are not representable; message_count = 0 yields
InvalidArgument as in the C code. -/
def xai_json_build_chat_request (messages : List ChatMessage)
    (options : Option ChatOptions) (default_model : String) : Except XaiErr Json :=
  if messages.length = 0 then .error .invalidArg
  else
    let model : String :=
      match options with
      | some o =>
        match o.model with
        | some mm => mm
        | none => default_model
      | none => default_model
    match messages.mapM buildMessageJson with
    | .error e => .error e
    | .ok msgsJson =>
      let optFields : List (String × Json) :=
        match options with
        | none => []
        | some o =>
          (if 0 ≤ o.temperature then [("temperature", Json.num o.temperature)] else []) ++
          (if 0 < o.max_tokens then [("max_tokens", Json.num (o.max_tokens : Int))] else []) ++
          (if o.stream = true then
            [("stream", Json.bool true),
             ("stream_options", Json.obj [("include_usage", Json.bool true)])]
           else []) ++
          (if 0 ≤ o.top_p then [("top_p", Json.num o.top_p)] else []) ++
          (match o.reasoning_effort with
           | some re => [("reasoning_effort", Json.str re)]
           | none => []) ++
          (if o.parallel_function_calling = true then
            [("parallel_tool_calls", Json.bool true)]
           else []) ++
          (match o.search_params with
           | some sp => if sp.mode ≠ 0 then [("search", buildSearchJson sp)] else []
           | none => []) ++
          (if 0 < o.tools.length then
            [("tools", Json.arr (o.tools.map buildToolJson))]
           else [])
      .ok (Json.obj ([("model", Json.str model), ("messages", Json.arr msgsJson)]
        ++ optFields))

/-- The keys of the top-level JSON object. -/
def jsonTopKeys (j : Json) : List String :=
  match j with
  | .obj fields => fields.map Prod.fst
  | _ => []

/-- Top-level keys of a built chat request (empty on a build error). -/
def chatRequestTopKeys (messages : List ChatMessage) (options : Option ChatOptions)
    (default_model : String) : List String :=
  match xai_json_build_chat_request messages options default_model with
  | .ok j => jsonTopKeys j
  | .error _ => []

theorem mem_map_fst_ite_nil {c : Prop} [Decidable c] (xs : List (String × Json)) (k : String) :
    k ∈ (if c then xs else []).map Prod.fst ↔ c ∧ k ∈ xs.map Prod.fst := by
  split
  · rename_i hc
    simp [hc]
  · rename_i hc
    simp [hc]

/-- C7. The chat-request JSON never contains the keys presence_penalty,
frequency_penalty, stop or user at the top level, whatever the messages
and options are. -/
theorem chat_request_never_serializes_excluded (messages : List ChatMessage)
    (options : Option ChatOptions) (dm : String) :
    "presence_penalty" ∉ chatRequestTopKeys messages options dm ∧
    "frequency_penalty" ∉ chatRequestTopKeys messages options dm ∧
    "stop" ∉ chatRequestTopKeys messages options dm ∧
    "user" ∉ chatRequestTopKeys messages options dm := by
  have key_not : ∀ k : String, k ≠ "model" → k ≠ "messages" → k ≠ "temperature" →
      k ≠ "max_tokens" → k ≠ "stream" → k ≠ "stream_options" → k ≠ "top_p" →
      k ≠ "reasoning_effort" → k ≠ "parallel_tool_calls" → k ≠ "search" → k ≠ "tools" →
      k ∉ chatRequestTopKeys messages options dm := by
    intro k h1 h2 h3 h4 h5 h6 h7 h8 h9 h10 h11 hk
    unfold chatRequestTopKeys xai_json_build_chat_request at hk
    by_cases hz : messages.length = 0
    · rw [if_pos hz] at hk
      simp at hk
    · rw [if_neg hz] at hk
      cases hmm : messages.mapM buildMessageJson with
      | error e =>
        rw [hmm] at hk
        simp at hk
      | ok msgs =>
        rw [hmm] at hk
        cases options with
        | none =>
          simp [jsonTopKeys] at hk
          rcases hk with h | h
          · exact h1 h
          · exact h2 h
        | some o =>
          rcases hre : o.reasoning_effort with - | re <;>
            rcases hsp : o.search_params with - | sp <;>
            · simp only [jsonTopKeys, hre, hsp, List.map_append, List.map_cons,
                List.map_nil, List.mem_append, List.mem_cons, List.mem_singleton,
                mem_map_fst_ite_nil, List.not_mem_nil, or_false, false_or] at hk
              tauto
  exact ⟨key_not _ (by decide) (by decide) (by decide) (by decide) (by decide) (by decide)
      (by decide) (by decide) (by decide) (by decide) (by decide),
    key_not _ (by decide) (by decide) (by decide) (by decide) (by decide) (by decide)
      (by decide) (by decide) (by decide) (by decide) (by decide),
    key_not _ (by decide) (by decide) (by decide) (by decide) (by decide) (by decide)
      (by decide) (by decide) (by decide) (by decide) (by decide),
    key_not _ (by decide) (by decide) (by decide) (by decide) (by decide) (by decide)
      (by decide) (by decide) (by decide) (by decide) (by decide)⟩

/-- A user message with plain text content. -/
def sampleMessages : List ChatMessage :=
  [ChatMessage.mk 1 (some "Say hi.") none none [] []]

/-- Options with every deliberately-unsupported field set to a
non-default value. -/
def sampleOptions : ChatOptions :=
  ChatOptions.mk none 1 5 true ["HALT", "END"] 1 2 3 (some "user-7") none
    (some "low") true [] (some "auto")

/-- Witness for C7 at a concrete request whose options set
presence_penalty, frequency_penalty, stop and user_id. -/
theorem chat_request_never_serializes_excluded_witness :
    "presence_penalty" ∉ chatRequestTopKeys sampleMessages (some sampleOptions) "grok-3-latest" ∧
    "frequency_penalty" ∉ chatRequestTopKeys sampleMessages (some sampleOptions) "grok-3-latest" ∧
    "stop" ∉ chatRequestTopKeys sampleMessages (some sampleOptions) "grok-3-latest" ∧
    "user" ∉ chatRequestTopKeys sampleMessages (some sampleOptions) "grok-3-latest" :=
  chat_request_never_serializes_excluded sampleMessages (some sampleOptions) "grok-3-latest"

/-! ## Image generation request (src/xai_images.c, xai_generate_image) -/

/-- xai_image_request_t; the prompt is required (a NULL prompt is rejected
before any request is built and is not representable here). -/
structure ImageRequest where
  prompt : String
  model : Option String
  n : Nat
  size : Option String
  response_format : Option String
  quality : Option String
  style : Option String
  user_id : Option String

/-- The JSON request body built by xai_generate_image: model defaulted,
prompt, the image count clamped into [1,10]
(n = request->n > 0 ? request->n : 1; if (n > 10) n = 10), and the
response format defaulted; size, quality, style and user are ignored. -/
def xai_generate_image_request (r : ImageRequest) : Json :=
  let model : String :=
    match r.model with
    | some mm => mm
    | none => "grok-2-image-latest"
  let n1 : Nat := if 0 < r.n then r.n else 1
  let n2 : Nat := if 10 < n1 then 10 else n1
  let fmt : String :=
    match r.response_format with
    | some f => f
    | none => "url"
  Json.obj [("model", .str model), ("prompt", .str r.prompt),
            ("n", .num (n2 : Int)), ("response_format", .str fmt)]

/-- First field with the given key of a JSON object. -/
def jsonLookup (j : Json) (key : String) : Option Json :=
  match j with
  | .obj fields => (fields.find? (fun kv => kv.1 == key)).map Prod.snd
  | _ => none

/-- C8. The n field serialized into every image-generation request body is
an integer in [1,10], whatever request->n was. -/
theorem image_request_n_in_range (r : ImageRequest) :
    ∃ k : Int, jsonLookup (xai_generate_image_request r) "n" = some (.num k) ∧
      1 ≤ k ∧ k ≤ 10 := by
  refine ⟨(((if 10 < (if 0 < r.n then r.n else 1) then 10
      else (if 0 < r.n then r.n else 1)) : Nat) : Int), rfl, ?_, ?_⟩
  · split_ifs <;> omega
  · split_ifs <;> omega

/-- Witness for C8 at the out-of-range counts n = 0 and n = 99. -/
theorem image_request_n_in_range_witness :
    (∃ k : Int, jsonLookup (xai_generate_image_request
        (ImageRequest.mk "p" none 0 none none none none none)) "n" = some (.num k) ∧
      1 ≤ k ∧ k ≤ 10) ∧
    (∃ k : Int, jsonLookup (xai_generate_image_request
        (ImageRequest.mk "p" none 99 none none none none none)) "n" = some (.num k) ∧
      1 ≤ k ∧ k ≤ 10) :=
  ⟨image_request_n_in_range (ImageRequest.mk "p" none 0 none none none none none),
   image_request_n_in_range (ImageRequest.mk "p" none 99 none none none none none)⟩

end XaiModel
